import Mathlib

/-!
Verification of the gamma-ai-watermark-remover pipeline.

The web layer lives in `src/app.py`; its request handler, filename
validation and output-path construction are embedded below.  The Detector
(`watermark_detector.WatermarkDetector.identify_watermarks`) and the
Remover (`watermark_remover.WatermarkRemover.clean_pdf_from_target_domain`)
are imported by `app.py` but their source files are not part of the
repository snapshot; they are modelled from the specification (sections
3, 4.1 and 4.2) where a claim depends on them.
-/

namespace GammaWM

/-! ## Filename validation (src/app.py, `allowed_file`) -/

/-- The characters of a filename after its last dot:
Python's `filename.rsplit(chr(46), 1)[1]` when a dot is present. -/
def afterLastDot (l : List Char) : List Char :=
  (l.reverse.takeWhile (fun c => c ≠ '.')).reverse

/-- `allowed_file` from `src/app.py`:
`'.' in filename and filename.rsplit('.', 1)[1].lower() in {'pdf'}`,
with `ALLOWED_EXTENSIONS = {'pdf'}`. -/
def allowed_file (filename : String) : Bool :=
  filename.data.contains '.' &&
    (afterLastDot filename.data).map Char.toLower == ['p', 'd', 'f']

/-! ## `secure_filename` (werkzeug, as called by the handler)

For ASCII input, werkzeug's `secure_filename` replaces the path
separator by a space, joins whitespace-separated words with an
underscore, deletes every character outside `[A-Za-z0-9_.-]`, and strips
leading and trailing dots and underscores.  Non-ASCII characters are
dropped by the `ascii`-codec encode step. -/

/-- Split a character list on runs of whitespace, dropping empty words
(Python's `str.split()` with no argument). -/
def splitWords : List Char → List Char → List (List Char)
  | [], acc => if acc.isEmpty then [] else [acc.reverse]
  | c :: cs, acc =>
      if c.isWhitespace then
        if acc.isEmpty then splitWords cs []
        else acc.reverse :: splitWords cs []
      else splitWords cs (c :: acc)

/-- Characters kept by werkzeug's ASCII strip: `[A-Za-z0-9_.-]`. -/
def keepChar (c : Char) : Bool :=
  c.isAlphanum || c = '_' || c = '.' || c = '-'

/-- Strip leading and trailing dots and underscores
(Python's `.strip("._")`). -/
def stripDotsUnderscores (l : List Char) : List Char :=
  ((l.dropWhile (fun c => c = '.' || c = '_')).reverse.dropWhile
    (fun c => c = '.' || c = '_')).reverse

/-- werkzeug's `secure_filename`, for the POSIX platform the app runs on. -/
def secure_filename (s : String) : String :=
  String.mk (stripDotsUnderscores
    (List.filter keepChar
      (List.intercalate ['_']
        (splitWords
          ((s.data.filter (fun c => c.toNat < 128)).map
            (fun c => if c = '/' then ' ' else c)) []))))

/-! ## Output path construction (src/app.py, lines 76-78)

`OUTPUT_FOLDER = 'outputs'`;
`output_path = os.path.join(OUTPUT_FOLDER, 'processed_' + filename)`
computed after `filename = secure_filename(pdf_file.filename)`. -/

def OUTPUT_FOLDER : String := "outputs"

/-- Output path the handler passes to the Remover, as a function of the
upload's original filename. -/
def outputPathFor (origName : String) : String :=
  OUTPUT_FOLDER ++ "/" ++ ("processed_" ++ secure_filename origName)

/-- An upload: the client-supplied filename and the file's bytes.  Two
uploads are distinct when either component differs. -/
structure Upload where
  name : String
  content : List Nat
  deriving DecidableEq, Repr

/-! ## Removal targets (spec section 3)

`RemovalTarget = { kind : Image | Link, objectId, pageIds }`, produced by
the Detector and consumed by the Remover. -/

inductive TargetKind where
  | image : TargetKind
  | link : TargetKind
  deriving DecidableEq, Repr

structure RemovalTarget where
  kind : TargetKind
  objectId : Nat
  pageIds : List Nat
  deriving DecidableEq, Repr

/-! ## The request handler (src/app.py, `remove_watermark`, lines 38-113)

The handler is embedded as a function of the upload's filename, the
Detector's result for the saved temporary file, the Remover's behaviour
(which may raise, hence `Except`), and whether the final `os.unlink`
succeeds.  The three response shapes the code can return are the
template page with an `error_message`, the template page with a
`success_message`, and a `FileResponse`. -/

inductive Response where
  | fileResponse : String → Response
  | successPage : String → Response
  | errorPage : String → Response
  deriving DecidableEq, Repr

/-- What one invocation of the handler did: the response it returned,
whether it called the Remover, the output path it produced a file at (if
any), and the fate of the temporary input file (`none` = deletion never
attempted, `some b` = `os.unlink` attempted and succeeded iff `b`). -/
structure Outcome where
  response : Response
  removerInvoked : Bool
  outputWritten : Option String
  unlinkResult : Option Bool
  deriving DecidableEq, Repr

/-- Python truthiness of the Detector's `error` slot: `if error:` is
taken when the slot holds a non-empty string. -/
def errTruthy : Option String → Bool
  | none => false
  | some s => s ≠ ""

/-- `remove_watermark` from `src/app.py`.  `det` is what
`detector.identify_watermarks(upload_path)` returns, `rem` what
`remover.clean_pdf_from_target_domain(upload_path, output_path)` does
(`Except.error` models a raised exception), `unlinkOk` whether the
`finally` block's `os.unlink` succeeds (its failure is swallowed by
`except: pass`). -/
def remove_watermark (origName : String)
    (det : List RemovalTarget × Option String)
    (rem : Except String (Nat × Nat)) (unlinkOk : Bool) : Outcome :=
  if origName = "" then
    { response := .errorPage "No file selected. Please choose a PDF file."
      removerInvoked := false, outputWritten := none, unlinkResult := none }
  else if ¬ allowed_file origName then
    { response := .errorPage "Invalid file type. Please upload a PDF file."
      removerInvoked := false, outputWritten := none, unlinkResult := none }
  else
    if errTruthy det.2 then
      { response := .errorPage ("Error processing file: " ++ det.2.getD "")
        removerInvoked := false, outputWritten := none
        unlinkResult := some unlinkOk }
    else if det.1.isEmpty then
      { response := .successPage "Gamma.app watermarks not found in PDF."
        removerInvoked := false, outputWritten := none
        unlinkResult := some unlinkOk }
    else
      match rem with
      | .ok _ =>
          { response := .fileResponse (outputPathFor origName)
            removerInvoked := true
            outputWritten := some (outputPathFor origName)
            unlinkResult := some unlinkOk }
      | .error e =>
          { response := .errorPage ("Error processing file: " ++ e)
            removerInvoked := true, outputWritten := none
            unlinkResult := some unlinkOk }

/-! ## PDF document model

Modelled from the spec: `watermark_detector.py` and
`watermark_remover.py` are imported by `src/app.py` but are not in the
repository snapshot, so the document model of spec section 3 is embedded
here.  A page owns a resource dictionary (named references to image
XObjects, by object identifier), a content stream (the names its paint
operators reference), and an annotation array of link annotations.
Image objects may be shared: several pages' resource dictionaries may
hold the same object identifier. -/

/-- A link annotation entry: its own object identifier and the host of
its target URI. -/
structure LinkAnnot where
  annotId : Nat
  uriHost : String
  deriving DecidableEq, Repr

/-- One page of the document. -/
structure Page where
  pageId : Nat
  resources : List (String × Nat)
  content : List String
  annots : List LinkAnnot
  deriving DecidableEq, Repr

/-- The parsed in-memory document: its page tree in page order. -/
structure Document where
  pages : List Page
  deriving DecidableEq, Repr

/-- Modelled from the spec (section 9, open question): the
watermark-image signature heuristic and the watermark-issuing domain are
Detector policy, treated as configuration. -/
structure DetectorConfig where
  isWatermarkImage : Nat → Bool
  watermarkDomain : String

/-- Case-insensitive exact-or-subdomain host match (spec section 4.1):
the URI host equals the configured domain or ends in a dot followed by
it, compared lowercased. -/
def hostMatches (domain host : String) : Bool :=
  let d := host.data.map Char.toLower
  let w := domain.data.map Char.toLower
  d == w || List.isSuffixOf ('.' :: w) d

/-! ## Detector (spec section 4.1, `identify_watermarks`) -/

/-- The object identifiers in a page's resource dictionary. -/
def pageImageIds (p : Page) : List Nat :=
  p.resources.map Prod.snd

/-- The identifiers of the pages whose resource dictionary references
object `o`, in page order. -/
def pagesReferencing (doc : Document) (o : Nat) : List Nat :=
  (doc.pages.filter (fun p => (pageImageIds p).contains o)).map Page.pageId

/-- Modelled from the spec: the distinct watermark-classified image
object identifiers of the document (each distinct identifier yields one
target, spec section 4.1). -/
def wmImageIds (cfg : DetectorConfig) (doc : Document) : List Nat :=
  ((doc.pages.flatMap pageImageIds).filter cfg.isWatermarkImage).dedup

/-- Modelled from the spec: one Image target per distinct
watermark-classified image object, with `pageIds` recording every page
that references it. -/
def imageTargets (cfg : DetectorConfig) (doc : Document) : List RemovalTarget :=
  (wmImageIds cfg doc).map
    (fun o => { kind := .image, objectId := o, pageIds := pagesReferencing doc o })

/-- Modelled from the spec: one Link target per watermark-domain link
annotation, carrying its own page. -/
def linkTargets (cfg : DetectorConfig) (doc : Document) : List RemovalTarget :=
  doc.pages.flatMap (fun p =>
    (p.annots.filter (fun a => hostMatches cfg.watermarkDomain a.uriHost)).map
      (fun a => { kind := .link, objectId := a.annotId, pageIds := [p.pageId] }))

/-- Modelled from the spec: the Detector's full target sequence. -/
def detectTargets (cfg : DetectorConfig) (doc : Document) : List RemovalTarget :=
  imageTargets cfg doc ++ linkTargets cfg doc

/-- Modelled from the spec: `identify_watermarks(inputPath)`.  Opening
and parsing the file at `inputPath` is the boundary with the filesystem;
its result (a document, or a parse failure such as not-a-PDF or
encrypted-without-key) is the `parsed` argument.  Structural failures
(parse failure, zero pages) land in the error slot with a non-empty
message; the function is total, so nothing escapes this boundary. -/
def identify_watermarks (cfg : DetectorConfig)
    (parsed : Except String Document) : List RemovalTarget × Option String :=
  match parsed with
  | .error e => ([], some ("malformed document: " ++ e))
  | .ok doc =>
      if doc.pages.isEmpty then ([], some "malformed document: zero pages")
      else (detectTargets cfg doc, none)

/-! ## Remover (spec section 4.2, `clean_pdf_from_target_domain`) -/

/-- Modelled from the spec: clean one page.  Watermark image references
are pruned from the resource dictionary, the paint operators naming a
pruned resource are stripped from the content stream (spec section 4.2:
no content stream may reference an undefined resource name afterwards),
and watermark-domain link annotations are dropped from the annotation
array. -/
def cleanPage (cfg : DetectorConfig) (p : Page) : Page :=
  { pageId := p.pageId
    resources := p.resources.filter (fun r => ¬ cfg.isWatermarkImage r.2)
    content := p.content.filter (fun n =>
      ¬ p.resources.any (fun r => r.1 = n && cfg.isWatermarkImage r.2))
    annots := p.annots.filter (fun a =>
      ¬ hostMatches cfg.watermarkDomain a.uriHost) }

/-- Modelled from the spec: the cleaned document, page per page, page
order preserved. -/
def cleanDoc (cfg : DetectorConfig) (doc : Document) : Document :=
  { pages := doc.pages.map (cleanPage cfg) }

/-- Modelled from the spec: `imagesRemoved` counts each distinct removed
image object once, regardless of how many pages referenced it. -/
def imagesRemovedCount (cfg : DetectorConfig) (doc : Document) : Nat :=
  (wmImageIds cfg doc).length

/-- Modelled from the spec: `linksRemoved` counts each removed
annotation entry once. -/
def linksRemovedCount (cfg : DetectorConfig) (doc : Document) : Nat :=
  (doc.pages.map (fun p =>
    (p.annots.filter (fun a => hostMatches cfg.watermarkDomain a.uriHost)).length)).sum

/-- The filesystem as the Remover sees it: what (if anything) sits at
the output path. -/
structure FsState where
  outputFile : Option Document
  deriving DecidableEq, Repr

/-- Modelled from the spec: the atomic write step — the output document
is built in memory and moved into place in one step, so on an unwritable
path the state at the output path is untouched. -/
def writeAtomic (writable : Bool) (d : Document) (fs : FsState) :
    FsState × Option String :=
  if writable then ({ outputFile := some d }, none)
  else (fs, some "unwritable output path")

/-- Modelled from the spec: `clean_pdf_from_target_domain(inputPath,
outputPath)`.  `parsed` is the Remover's own reparse of `inputPath`
(independent of the Detector's), `writable` whether `outputPath` can be
written.  Returns the removal counts or surfaces an error, together with
the final state of the output path. -/
def clean_pdf_from_target_domain (cfg : DetectorConfig)
    (parsed : Except String Document) (writable : Bool) (fs : FsState) :
    Except String (Nat × Nat) × FsState :=
  match parsed with
  | .error e => (.error ("processing error: " ++ e), fs)
  | .ok doc =>
      match writeAtomic writable (cleanDoc cfg doc) fs with
      | (fs', some m) => (.error ("I/O error: " ++ m), fs')
      | (fs', none) =>
          (.ok (imagesRemovedCount cfg doc, linksRemovedCount cfg doc), fs')

/-- `n` resolves in page `p`: some entry of `p`'s resource dictionary is
named `n`. -/
def resolvesName (p : Page) (n : String) : Bool :=
  p.resources.any (fun r => r.1 = n)

/-- A document is reference-closed when every resource name a page's
content stream paints resolves to an entry of that page's resource
dictionary. -/
def noDanglingResources (doc : Document) : Prop :=
  ∀ p ∈ doc.pages, ∀ n ∈ p.content, resolvesName p n = true

instance (doc : Document) : Decidable (noDanglingResources doc) :=
  inferInstanceAs (Decidable (∀ p ∈ doc.pages, ∀ n ∈ p.content, resolvesName p n = true))

theorem resolvesName_iff (p : Page) (n : String) :
    resolvesName p n = true ↔ ∃ o, (n, o) ∈ p.resources := by
  simp only [resolvesName, List.any_eq_true, decide_eq_true_eq]
  constructor
  · rintro ⟨⟨n', o⟩, hmem, h⟩
    simp only at h
    subst h
    exact ⟨o, hmem⟩
  · rintro ⟨o, hmem⟩
    exact ⟨(n, o), hmem, rfl⟩

/-! ## Supporting lemmas -/

theorem takeWhile_all_append (p : Char → Bool) (xs ys : List Char)
    (h : ∀ x ∈ xs, p x = true) :
    (xs ++ ys).takeWhile p = xs ++ ys.takeWhile p := by
  induction xs with
  | nil => simp
  | cons x xs ih =>
      simp [List.takeWhile_cons, h x (by simp),
        ih (fun a ha => h a (by simp [ha]))]

theorem split_at_first_fail (p : Char → Bool) (l : List Char)
    (h : ¬ ∀ a ∈ l, p a = true) :
    ∃ pre c suf, l = pre ++ c :: suf ∧ (∀ a ∈ pre, p a = true) ∧
      p c = false ∧ l.takeWhile p = pre := by
  induction l with
  | nil => exact absurd (by simp) h
  | cons x xs ih =>
      by_cases hx : p x = true
      · have hxs : ¬ ∀ a ∈ xs, p a = true := by
          intro hall
          exact h (by
            intro a ha
            rcases List.mem_cons.mp ha with h1 | h2
            · exact h1 ▸ hx
            · exact hall a h2)
        obtain ⟨pre, c, suf, heq, hpre, hc, htake⟩ := ih hxs
        exact ⟨x :: pre, c, suf, by simp [heq],
          by
            intro a ha
            rcases List.mem_cons.mp ha with h1 | h2
            · exact h1 ▸ hx
            · exact hpre a h2,
          hc, by simp [List.takeWhile_cons, hx, htake]⟩
      · exact ⟨[], x, xs, rfl, by simp, (Bool.not_eq_true _) ▸ hx,
          by simp [List.takeWhile_cons, hx]⟩

theorem afterLastDot_split (l : List Char) (hmem : '.' ∈ l) :
    ∃ a, l = a ++ '.' :: afterLastDot l ∧ '.' ∉ afterLastDot l := by
  have hfail : ¬ ∀ c ∈ l.reverse, (decide (c ≠ '.')) = true := by
    intro hall
    have := hall '.' (List.mem_reverse.mpr hmem)
    simp at this
  obtain ⟨pre, c, suf, heq, hpre, hc, htake⟩ :=
    split_at_first_fail (fun c => decide (c ≠ '.')) l.reverse hfail
  have hcdot : c = '.' := by
    by_contra hne
    simp [hne] at hc
  subst hcdot
  have hafter : afterLastDot l = pre.reverse := by
    unfold afterLastDot
    rw [htake]
  refine ⟨suf.reverse, ?_, ?_⟩
  · rw [hafter]
    have hl : l = (pre ++ '.' :: suf).reverse := by
      rw [← heq]
      simp
    rw [hl]
    simp
  · rw [hafter]
    intro hdot
    have := hpre '.' (List.mem_reverse.mp hdot)
    simp at this

theorem afterLastDot_of_split (a b : List Char) (hb : '.' ∉ b) :
    afterLastDot (a ++ '.' :: b) = b := by
  unfold afterLastDot
  rw [List.reverse_append, List.reverse_cons, List.append_assoc]
  rw [takeWhile_all_append _ _ _ (by
    intro x hx
    simp only [decide_eq_true_eq]
    intro hxe
    exact hb (hxe ▸ List.mem_reverse.mp hx))]
  simp [List.takeWhile_cons]

/-! ## C9: `allowed_file` characterization -/

/-- C9: `allowed_file(filename)` returns `True` iff `filename` contains
at least one dot and the substring after the last dot equals `"pdf"`
after lowercasing; consequently the check is case-insensitive
(`"x.PDF"` is accepted) and a dotless name (`"pdf"`) is rejected. -/
theorem allowed_file_character (s : String) :
    (allowed_file s = true ↔
      (s.data.contains '.' = true ∧
        ∃ a b : List Char, s.data = a ++ '.' :: b ∧ '.' ∉ b ∧
          b.map Char.toLower = ['p', 'd', 'f'])) ∧
    allowed_file "x.PDF" = true ∧ allowed_file "pdf" = false := by
  refine ⟨?_, by decide, by decide⟩
  constructor
  · intro h
    simp only [allowed_file, Bool.and_eq_true, beq_iff_eq] at h
    obtain ⟨hcont, hlow⟩ := h
    have hmem : '.' ∈ s.data := by
      simpa using hcont
    obtain ⟨a, heq, hnd⟩ := afterLastDot_split s.data hmem
    exact ⟨hcont, a, afterLastDot s.data, heq, hnd, hlow⟩
  · rintro ⟨hcont, a, b, heq, hnd, hlow⟩
    simp only [allowed_file, Bool.and_eq_true, beq_iff_eq]
    refine ⟨hcont, ?_⟩
    rw [heq, afterLastDot_of_split a b hnd, hlow]

/-! ## More supporting lemmas -/

theorem string_append_cancel_left (a b c : String) : a ++ b = a ++ c ↔ b = c := by
  constructor
  · intro h
    have hd := congrArg String.data h
    simp only [String.data_append] at hd
    exact String.ext (List.append_cancel_left hd)
  · intro h
    rw [h]

theorem length_eq_filter_ne_add_count (l : List Nat) (o : Nat) :
    l.length = (l.filter (fun x => x ≠ o)).length + l.count o := by
  induction l with
  | nil => simp
  | cons x xs ih =>
      by_cases hx : x = o
      · subst hx
        simp [List.count_cons, ih]
        omega
      · simp [List.filter_cons, hx, List.count_cons, ih]
        omega

theorem linkTargets_kind (cfg : DetectorConfig) (doc : Document)
    (t : RemovalTarget) (ht : t ∈ linkTargets cfg doc) :
    t.kind = TargetKind.link := by
  simp only [linkTargets, List.mem_flatMap, List.mem_map, List.mem_filter] at ht
  obtain ⟨p, _, a, _, rfl⟩ := ht
  rfl

theorem mem_wmImageIds (cfg : DetectorConfig) (doc : Document) (o : Nat) :
    o ∈ wmImageIds cfg doc ↔
      cfg.isWatermarkImage o = true ∧ ∃ p ∈ doc.pages, o ∈ pageImageIds p := by
  simp [wmImageIds, List.mem_dedup, List.mem_filter, List.mem_flatMap]
  tauto

theorem cleanPage_no_dangling (cfg : DetectorConfig) (p : Page)
    (hwf : ∀ n ∈ p.content, resolvesName p n = true) :
    ∀ n ∈ (cleanPage cfg p).content, resolvesName (cleanPage cfg p) n = true := by
  intro n hn
  simp only [cleanPage, List.mem_filter, decide_eq_true_eq] at hn
  obtain ⟨hnc, hnot⟩ := hn
  have hres := hwf n hnc
  rw [resolvesName, List.any_eq_true] at hres
  obtain ⟨r, hr, hr1⟩ := hres
  rw [resolvesName, List.any_eq_true]
  refine ⟨r, ?_, hr1⟩
  simp only [cleanPage, List.mem_filter, decide_eq_true_eq]
  refine ⟨hr, ?_⟩
  simp only [decide_eq_true_eq] at hr1
  intro hwm
  exact hnot (by
    rw [List.any_eq_true]
    exact ⟨r, hr, by simp [hr1, hwm]⟩)

theorem cleanDoc_no_dangling (cfg : DetectorConfig) (doc : Document)
    (hwf : noDanglingResources doc) :
    noDanglingResources (cleanDoc cfg doc) := by
  intro p' hp' n hn
  simp only [cleanDoc, List.mem_map] at hp'
  obtain ⟨p, hp, rfl⟩ := hp'
  exact cleanPage_no_dangling cfg p (hwf p hp) n hn

/-- The Detector's error slot is never the empty string: the detector
contract C1 relies on. -/
theorem detector_error_nonempty (cfg : DetectorConfig)
    (parsed : Except String Document) (s : String)
    (h : (identify_watermarks cfg parsed).2 = some s) : s ≠ "" := by
  cases parsed with
  | error e =>
      simp only [identify_watermarks, Option.some.injEq] at h
      subst h
      intro hempty
      have := congrArg String.data hempty
      simp [String.data_append] at this
  | ok doc =>
      by_cases hp : doc.pages.isEmpty
      · simp only [identify_watermarks, hp, if_pos, Option.some.injEq] at h
        subst h
        intro hempty
        have := congrArg String.data hempty
        simp at this
      · simp [identify_watermarks, hp] at h

/-! ## Concrete fixtures used by the witnesses -/

/-- A concrete detector policy: object 5 carries the watermark image
signature; the issuing domain is gamma.app. -/
def cfgEx : DetectorConfig :=
  { isWatermarkImage := fun o => o == 5, watermarkDomain := "gamma.app" }

/-- A concrete 3-page document: the watermark image object 5 is shared
by every page, page 1 also has a watermark-domain link annotation and a
genuine image object 7. -/
def docEx : Document :=
  { pages :=
      [ { pageId := 1, resources := [("Im1", 5), ("F1", 7)]
          content := ["Im1", "F1"], annots := [⟨21, "gamma.app"⟩] },
        { pageId := 2, resources := [("Im1", 5)]
          content := ["Im1"], annots := [] },
        { pageId := 3, resources := [("Im1", 5)]
          content := ["Im1"], annots := [] } ] }

/-- A concrete Detector result: one Image target, no error. -/
def detEx : List RemovalTarget × Option String :=
  ([{ kind := .image, objectId := 5, pageIds := [1, 2, 3] }], none)

/-! ## Claim theorems -/

/-- C1: for every request handled by `remove_watermark`, the Remover
(`clean_pdf_from_target_domain`) is invoked if and only if the Detector
(`identify_watermarks`) returned a non-empty target sequence and no
error; when the Detector returns an empty target sequence the Remover is
never invoked.  The validation hypotheses restrict to requests on which
the Detector actually runs; `hcontract` is the Detector contract that an
error, when present, is a non-empty string (proved of the modelled
Detector in `detector_error_nonempty`). -/
theorem remover_invocation_iff (origName : String)
    (det : List RemovalTarget × Option String)
    (rem : Except String (Nat × Nat)) (unlinkOk : Bool)
    (hname : origName ≠ "") (hallow : allowed_file origName = true)
    (hcontract : det.2 = none ∨ ∃ s, det.2 = some s ∧ s ≠ "") :
    ((remove_watermark origName det rem unlinkOk).removerInvoked = true ↔
      det.1 ≠ [] ∧ det.2 = none) ∧
    (det.1 = [] →
      (remove_watermark origName det rem unlinkOk).removerInvoked = false) := by
  obtain ⟨targets, err⟩ := det
  rcases hcontract with hnone | ⟨s, hsome, hs⟩
  · simp only at hnone
    subst hnone
    cases targets with
    | nil => simp [remove_watermark, hname, hallow, errTruthy]
    | cons t ts =>
        cases rem <;>
          simp [remove_watermark, hname, hallow, errTruthy]
  · simp only at hsome
    subst hsome
    have htr : errTruthy (some s) = true := by
      simp [errTruthy, hs]
    simp [remove_watermark, hname, hallow, htr, hs]

theorem remover_invocation_iff_witness :
    ("doc.pdf" ≠ "" ∧ allowed_file "doc.pdf" = true ∧
      (detEx.2 = none ∨ ∃ s, detEx.2 = some s ∧ s ≠ "")) ∧
    (((remove_watermark "doc.pdf" detEx (.ok (1, 0)) true).removerInvoked = true ↔
        detEx.1 ≠ [] ∧ detEx.2 = none) ∧
      (detEx.1 = [] →
        (remove_watermark "doc.pdf" detEx (.ok (1, 0)) true).removerInvoked = false)) :=
  ⟨⟨by decide, by decide, Or.inl rfl⟩,
    remover_invocation_iff "doc.pdf" detEx (.ok (1, 0)) true
      (by decide) (by decide) (Or.inl rfl)⟩

/-- C5: when the Detector returns an empty target sequence and no error,
the handler returns the "watermarks not found" success page — an outcome
distinct from both the file response and the error response — no output
file is produced, and the Remover is not invoked. -/
theorem no_watermark_is_success (origName : String)
    (rem : Except String (Nat × Nat)) (unlinkOk : Bool)
    (hname : origName ≠ "") (hallow : allowed_file origName = true) :
    (remove_watermark origName ([], none) rem unlinkOk).response =
      .successPage "Gamma.app watermarks not found in PDF." ∧
    (∀ p, (remove_watermark origName ([], none) rem unlinkOk).response ≠
      .fileResponse p) ∧
    (∀ m, (remove_watermark origName ([], none) rem unlinkOk).response ≠
      .errorPage m) ∧
    (remove_watermark origName ([], none) rem unlinkOk).outputWritten = none ∧
    (remove_watermark origName ([], none) rem unlinkOk).removerInvoked = false := by
  simp [remove_watermark, hname, hallow, errTruthy]

theorem no_watermark_is_success_witness :
    ("doc.pdf" ≠ "" ∧ allowed_file "doc.pdf" = true) ∧
    ((remove_watermark "doc.pdf" ([], none) (.ok (0, 0)) true).response =
        .successPage "Gamma.app watermarks not found in PDF." ∧
      (∀ p, (remove_watermark "doc.pdf" ([], none) (.ok (0, 0)) true).response ≠
        .fileResponse p) ∧
      (∀ m, (remove_watermark "doc.pdf" ([], none) (.ok (0, 0)) true).response ≠
        .errorPage m) ∧
      (remove_watermark "doc.pdf" ([], none) (.ok (0, 0)) true).outputWritten = none ∧
      (remove_watermark "doc.pdf" ([], none) (.ok (0, 0)) true).removerInvoked = false) :=
  ⟨⟨by decide, by decide⟩,
    no_watermark_is_success "doc.pdf" (.ok (0, 0)) true (by decide) (by decide)⟩

/-- C6: every response of the handler is one of exactly three shapes —
a file response, the zero-watermarks success page, or an error page —
and when the Detector returns a non-empty error string `e` the handler
responds with the error page carrying "Error processing file: " followed
by `e`, without invoking the Remover. -/
theorem handler_three_outcomes (origName : String)
    (det : List RemovalTarget × Option String)
    (rem : Except String (Nat × Nat)) (unlinkOk : Bool) (e : String)
    (hname : origName ≠ "") (hallow : allowed_file origName = true)
    (herr : det.2 = some e) (hne : e ≠ "") :
    (∀ f d r u, (∃ p, (remove_watermark f d r u).response = .fileResponse p) ∨
       (∃ m, (remove_watermark f d r u).response = .successPage m) ∨
       (∃ m, (remove_watermark f d r u).response = .errorPage m)) ∧
    (remove_watermark origName det rem unlinkOk).response =
      .errorPage ("Error processing file: " ++ e) ∧
    (remove_watermark origName det rem unlinkOk).removerInvoked = false := by
  refine ⟨?_, ?_⟩
  · intro f d r u
    cases h : (remove_watermark f d r u).response with
    | fileResponse p => exact Or.inl ⟨p, rfl⟩
    | successPage m => exact Or.inr (Or.inl ⟨m, rfl⟩)
    | errorPage m => exact Or.inr (Or.inr ⟨m, rfl⟩)
  · obtain ⟨targets, err⟩ := det
    simp only at herr
    subst herr
    have htr : errTruthy (some e) = true := by
      simp [errTruthy, hne]
    simp [remove_watermark, hname, hallow, htr]

theorem handler_three_outcomes_witness :
    ("doc.pdf" ≠ "" ∧ allowed_file "doc.pdf" = true ∧
      (([], some "bad pdf") : List RemovalTarget × Option String).2 = some "bad pdf" ∧
      "bad pdf" ≠ "") ∧
    ((∀ f d r u, (∃ p, (remove_watermark f d r u).response = .fileResponse p) ∨
        (∃ m, (remove_watermark f d r u).response = .successPage m) ∨
        (∃ m, (remove_watermark f d r u).response = .errorPage m)) ∧
      (remove_watermark "doc.pdf" ([], some "bad pdf") (.ok (0, 0)) true).response =
        .errorPage ("Error processing file: " ++ "bad pdf") ∧
      (remove_watermark "doc.pdf" ([], some "bad pdf") (.ok (0, 0)) true).removerInvoked =
        false) :=
  ⟨⟨by decide, by decide, rfl, by decide⟩,
    handler_three_outcomes "doc.pdf" ([], some "bad pdf") (.ok (0, 0)) true "bad pdf"
      (by decide) (by decide) rfl (by decide)⟩

/-- C10: for every request that passes filename validation, the handler
attempts to delete the temporary input file on every path (the deletion
attempt is recorded with its success bit), and the success or failure of
that deletion never changes the response. -/
theorem temp_file_cleanup (origName : String)
    (det : List RemovalTarget × Option String)
    (rem : Except String (Nat × Nat))
    (hname : origName ≠ "") (hallow : allowed_file origName = true) :
    (∀ b, (remove_watermark origName det rem b).unlinkResult = some b) ∧
    (∀ b b', (remove_watermark origName det rem b).response =
      (remove_watermark origName det rem b').response) := by
  obtain ⟨targets, err⟩ := det
  constructor
  · intro b
    cases htr : errTruthy err
    · cases targets with
      | nil => simp [remove_watermark, hname, hallow, htr]
      | cons t ts => cases rem <;> simp [remove_watermark, hname, hallow, htr]
    · simp [remove_watermark, hname, hallow, htr]
  · intro b b'
    cases htr : errTruthy err
    · cases targets with
      | nil => simp [remove_watermark, hname, hallow, htr]
      | cons t ts => cases rem <;> simp [remove_watermark, hname, hallow, htr]
    · simp [remove_watermark, hname, hallow, htr]

theorem temp_file_cleanup_witness :
    ("doc.pdf" ≠ "" ∧ allowed_file "doc.pdf" = true) ∧
    ((∀ b, (remove_watermark "doc.pdf" ([], none) (.ok (0, 0)) b).unlinkResult =
        some b) ∧
      (∀ b b', (remove_watermark "doc.pdf" ([], none) (.ok (0, 0)) b).response =
        (remove_watermark "doc.pdf" ([], none) (.ok (0, 0)) b').response)) :=
  ⟨⟨by decide, by decide⟩,
    temp_file_cleanup "doc.pdf" ([], none) (.ok (0, 0)) (by decide) (by decide)⟩

/-- C2: a watermark image object referenced by N pages yields exactly one
RemovalTarget of kind Image, whose pageIds list the N distinct
referencing pages, and `imagesRemoved` counts that object exactly once
regardless of N. -/
theorem shared_image_single_target (cfg : DetectorConfig) (doc : Document)
    (o N : Nat)
    (hwm : cfg.isWatermarkImage o = true)
    (hN : (pagesReferencing doc o).length = N)
    (hpos : 1 ≤ N)
    (hids : (doc.pages.map Page.pageId).Nodup) :
    ((detectTargets cfg doc).filter
        (fun t => t.kind == TargetKind.image && t.objectId == o)).length = 1 ∧
    (∀ t ∈ detectTargets cfg doc,
        t.kind = TargetKind.image → t.objectId = o →
        t.pageIds.length = N ∧ t.pageIds.Nodup) ∧
    (wmImageIds cfg doc).count o = 1 ∧
    imagesRemovedCount cfg doc =
      ((wmImageIds cfg doc).filter (fun x => x ≠ o)).length + 1 := by
  have href : ∃ p ∈ doc.pages, o ∈ pageImageIds p := by
    have hlen : 0 < (pagesReferencing doc o).length := by omega
    rw [List.length_pos] at hlen
    obtain ⟨i, hi⟩ := List.exists_mem_of_ne_nil _ hlen
    unfold pagesReferencing at hi
    rw [List.mem_map] at hi
    obtain ⟨p, hp, _⟩ := hi
    rw [List.mem_filter] at hp
    exact ⟨p, hp.1, by simpa using hp.2⟩
  have hmem : o ∈ wmImageIds cfg doc := (mem_wmImageIds cfg doc o).mpr ⟨hwm, href⟩
  have hnd : (wmImageIds cfg doc).Nodup := List.nodup_dedup _
  have hcount : (wmImageIds cfg doc).count o = 1 :=
    List.count_eq_one_of_mem hnd hmem
  refine ⟨?_, ?_, hcount, ?_⟩
  · rw [detectTargets, List.filter_append]
    have hlink : (linkTargets cfg doc).filter
        (fun t => t.kind == TargetKind.image && t.objectId == o) = [] := by
      rw [List.filter_eq_nil_iff]
      intro t ht
      rw [linkTargets_kind cfg doc t ht]
      simp
    rw [hlink, List.append_nil]
    rw [imageTargets, List.filter_map, List.length_map]
    have hpred : ((fun (t : RemovalTarget) =>
        t.kind == TargetKind.image && t.objectId == o) ∘
        (fun o' => RemovalTarget.mk TargetKind.image o' (pagesReferencing doc o'))) =
        (fun o' => o' == o) := by
      funext o'
      simp [Function.comp]
    rw [hpred]
    have hcp : (wmImageIds cfg doc).countP (fun o' => o' == o) =
        ((wmImageIds cfg doc).filter (fun o' => o' == o)).length :=
      List.countP_eq_length_filter _ _
    rw [← hcp]
    simpa [List.count] using hcount
  · intro t ht hkind hobj
    rw [detectTargets, List.mem_append] at ht
    rcases ht with ht | ht
    · rw [imageTargets, List.mem_map] at ht
      obtain ⟨o', _, rfl⟩ := ht
      simp only at hobj
      subst hobj
      constructor
      · exact hN
      · unfold pagesReferencing
        exact ((List.filter_sublist doc.pages).map Page.pageId).nodup hids
    · rw [linkTargets_kind cfg doc t ht] at hkind
      cases hkind
  · rw [imagesRemovedCount]
    rw [length_eq_filter_ne_add_count (wmImageIds cfg doc) o, hcount]

theorem shared_image_single_target_witness :
    (cfgEx.isWatermarkImage 5 = true ∧ (pagesReferencing docEx 5).length = 3 ∧
      1 ≤ 3 ∧ (docEx.pages.map Page.pageId).Nodup) ∧
    (((detectTargets cfgEx docEx).filter
        (fun t => t.kind == TargetKind.image && t.objectId == 5)).length = 1 ∧
      (∀ t ∈ detectTargets cfgEx docEx,
          t.kind = TargetKind.image → t.objectId = 5 →
          t.pageIds.length = 3 ∧ t.pageIds.Nodup) ∧
      (wmImageIds cfgEx docEx).count 5 = 1 ∧
      imagesRemovedCount cfgEx docEx =
        ((wmImageIds cfgEx docEx).filter (fun x => x ≠ 5)).length + 1) :=
  ⟨⟨by decide, by decide, by decide, by decide⟩,
    shared_image_single_target cfgEx docEx 5 3
      (by decide) (by decide) (by decide) (by decide)⟩

/-- C3: every output document `clean_pdf_from_target_domain` produces is
reference-closed — every resource name painted by a page's content
stream resolves in that page's resource dictionary — provided the input
document was (valid PDF inputs are). -/
theorem output_no_dangling_resources (cfg : DetectorConfig)
    (parsed : Except String Document) (writable : Bool) (fs : FsState)
    (res : Except String (Nat × Nat)) (fs' : FsState) (out : Document)
    (hwf : ∀ doc, parsed = Except.ok doc → noDanglingResources doc)
    (hrun : clean_pdf_from_target_domain cfg parsed writable fs = (res, fs'))
    (hfs : fs.outputFile = none)
    (hout : fs'.outputFile = some out) :
    noDanglingResources out := by
  cases parsed with
  | error e =>
      simp only [clean_pdf_from_target_domain, Prod.mk.injEq] at hrun
      rw [← hrun.2, hfs] at hout
      cases hout
  | ok doc =>
      cases writable with
      | false =>
          simp only [clean_pdf_from_target_domain, writeAtomic, if_neg,
            Bool.false_eq_true, not_false_iff, Prod.mk.injEq] at hrun
          rw [← hrun.2, hfs] at hout
          cases hout
      | true =>
          simp only [clean_pdf_from_target_domain, writeAtomic, if_pos,
            Prod.mk.injEq] at hrun
          rw [← hrun.2] at hout
          simp only [Option.some.injEq] at hout
          rw [← hout]
          exact cleanDoc_no_dangling cfg doc (hwf doc rfl)

theorem output_no_dangling_resources_witness :
    ((∀ doc, (Except.ok docEx : Except String Document) = Except.ok doc →
        noDanglingResources doc) ∧
      clean_pdf_from_target_domain cfgEx (Except.ok docEx) true ⟨none⟩ =
        (Except.ok (1, 1), ⟨some (cleanDoc cfgEx docEx)⟩) ∧
      (⟨none⟩ : FsState).outputFile = none ∧
      (⟨some (cleanDoc cfgEx docEx)⟩ : FsState).outputFile =
        some (cleanDoc cfgEx docEx)) ∧
    noDanglingResources (cleanDoc cfgEx docEx) :=
  ⟨⟨fun doc h => by cases h; exact (by decide), rfl, rfl, rfl⟩,
    output_no_dangling_resources cfgEx (Except.ok docEx) true ⟨none⟩
      (Except.ok (1, 1)) ⟨some (cleanDoc cfgEx docEx)⟩ (cleanDoc cfgEx docEx)
      (fun doc h => by cases h; exact (by decide)) rfl rfl rfl⟩

/-- C4: `identify_watermarks` is a total function of the parse outcome —
nothing raises past its boundary — and on every structural failure
(parse failure, or a document with zero pages) it returns an empty
target sequence together with a non-empty error string. -/
theorem detector_total_on_failure (cfg : DetectorConfig)
    (parsed : Except String Document)
    (hfail : (∃ e, parsed = Except.error e) ∨
      ∃ d, parsed = Except.ok d ∧ d.pages = []) :
    (identify_watermarks cfg parsed).1 = [] ∧
    ∃ s, (identify_watermarks cfg parsed).2 = some s ∧ s ≠ "" := by
  rcases hfail with ⟨e, rfl⟩ | ⟨d, rfl, hd⟩
  · refine ⟨rfl, "malformed document: " ++ e, rfl, ?_⟩
    intro h
    have := congrArg String.data h
    simp [String.data_append] at this
  · simp [identify_watermarks, hd]

theorem detector_total_on_failure_witness :
    ((∃ e, (Except.error "not a PDF" : Except String Document) =
        Except.error e) ∨
      ∃ d, (Except.error "not a PDF" : Except String Document) =
        Except.ok d ∧ d.pages = []) ∧
    ((identify_watermarks cfgEx (Except.error "not a PDF")).1 = [] ∧
      ∃ s, (identify_watermarks cfgEx (Except.error "not a PDF")).2 = some s ∧
        s ≠ "") :=
  ⟨Or.inl ⟨"not a PDF", rfl⟩,
    detector_total_on_failure cfgEx (Except.error "not a PDF")
      (Or.inl ⟨"not a PDF", rfl⟩)⟩

/-- C7: the Remover writes atomically: when it fails (input that fails to
reparse, or an unwritable output path) it surfaces the error and leaves
nothing at the output path; when it succeeds, the complete cleaned
document sits there. -/
theorem remover_atomic_write (cfg : DetectorConfig)
    (parsed : Except String Document) (writable : Bool) (fs : FsState)
    (hfs : fs.outputFile = none) :
    (∀ e fs', clean_pdf_from_target_domain cfg parsed writable fs = (.error e, fs') →
        fs'.outputFile = none) ∧
    (∀ c fs', clean_pdf_from_target_domain cfg parsed writable fs = (.ok c, fs') →
        ∃ doc, parsed = .ok doc ∧ fs'.outputFile = some (cleanDoc cfg doc)) := by
  cases parsed with
  | error e =>
      constructor
      · intro e' fs' h
        simp [clean_pdf_from_target_domain] at h
        rw [← h.2]
        exact hfs
      · intro c fs' h
        simp [clean_pdf_from_target_domain] at h
  | ok doc =>
      cases writable with
      | false =>
          constructor
          · intro e' fs' h
            simp [clean_pdf_from_target_domain, writeAtomic] at h
            rw [← h.2]
            exact hfs
          · intro c fs' h
            simp [clean_pdf_from_target_domain, writeAtomic] at h
      | true =>
          constructor
          · intro e' fs' h
            simp [clean_pdf_from_target_domain, writeAtomic] at h
          · intro c fs' h
            simp only [clean_pdf_from_target_domain, writeAtomic, if_pos,
              Prod.mk.injEq] at h
            refine ⟨doc, rfl, ?_⟩
            rw [← h.2]

theorem remover_atomic_write_witness :
    (⟨none⟩ : FsState).outputFile = none ∧
    ((∀ e fs', clean_pdf_from_target_domain cfgEx (Except.error "boom") true ⟨none⟩ =
        (.error e, fs') → fs'.outputFile = none) ∧
      (∀ c fs', clean_pdf_from_target_domain cfgEx (Except.error "boom") true ⟨none⟩ =
        (.ok c, fs') → ∃ doc, (Except.error "boom" : Except String Document) =
          .ok doc ∧ fs'.outputFile = some (cleanDoc cfgEx doc))) :=
  ⟨rfl, remover_atomic_write cfgEx (Except.error "boom") true ⟨none⟩ rfl⟩

/-- C8 counterexample: two distinct uploads that share the filename
"a.pdf" are served to the very same output path
"outputs/processed_a.pdf", which the handler then writes — refuting the
claim that the paths written by two requests serving distinct uploads
are distinct. -/
theorem output_path_collision_example :
    (⟨"a.pdf", [0]⟩ : Upload) ≠ ⟨"a.pdf", [1]⟩ ∧
    outputPathFor (Upload.mk "a.pdf" [0]).name =
      outputPathFor (Upload.mk "a.pdf" [1]).name ∧
    (remove_watermark (Upload.mk "a.pdf" [0]).name detEx (.ok (1, 0))
        true).outputWritten = some "outputs/processed_a.pdf" ∧
    (remove_watermark (Upload.mk "a.pdf" [1]).name detEx (.ok (1, 0))
        true).outputWritten = some "outputs/processed_a.pdf" := by
  refine ⟨by decide, rfl, by decide, by decide⟩

/-- C8 amended: temporary input files come from the per-request OS
temp-file allocator, but the output path is a pure function of the
sanitized upload filename: the output paths of two requests coincide
exactly when the sanitized filenames of their uploads coincide — in
particular, distinct uploads sharing a filename are written to the same
output path. -/
theorem output_path_collision_iff (u1 u2 : Upload) :
    outputPathFor u1.name = outputPathFor u2.name ↔
      secure_filename u1.name = secure_filename u2.name := by
  unfold outputPathFor
  rw [string_append_cancel_left, string_append_cancel_left]

end GammaWM
